import Mathlib

/-!
Verification of the per-table control loop of `cardroom` (`controller.py`,
`Controller._run` and its helpers), shallowly embedded in Lean.

Modelling conventions:
* Wall-clock timestamps and durations are integers counting microseconds
  (the resolution of Python `datetime`/`timedelta`).  Reads of the wall
  clock inside one sweep pass are modelled as a single instant `now`.
* The external table / rules engine (`cardroom.table.Table`, backed by
  `pokerkit`, which the spec declares an external collaborator and which
  is not part of the analysed sources) is abstracted as a record of
  predicates and mutators over an opaque state type `σ`; mutators that the
  controller invokes unguarded and that may raise `ValueError` return
  `Option σ` (`none` models the exception, with no mutation).
* A snapshot (`Data.from_table`, a pure function of the table per the
  spec) is modelled as the table state itself; the loop only ever appends
  snapshots and counts them.
* Python exceptions that escape the dispatcher's `except ValueError` are
  modelled with `Except Err`.
-/

namespace Cardroom

/-- Error classes that can escape the controller code: `ValueError`
(raised by the table / rules engine / parsers) and the `AssertionError`
raised by the controller itself when a betting deadline fires with no
legal default action. -/
inductive Err where
  | valueError
  | assertionError
  deriving Repr, DecidableEq

/-- Seat information the controller reads from the external table
(`seat.player_status`, `seat.active_status`, `seat.player_index`). -/
structure Seat where
  player_status : Bool
  active_status : Bool
  player_index : Option Nat
  deriving Repr, DecidableEq

/-- Modelled from the spec: the external table / rules-engine interface
(spec section 6, "Consumed capabilities").  `cardroom.table.Table` is not
among the analysed sources; the controller only uses the operations
below.  Fallible operations (those the controller calls where a raised
`ValueError` is observable) return `Option σ`, `none` meaning the call
raised and performed no mutation; mutators the controller only ever
invokes under their eligibility guard are modelled as total, per the
engine's contract. -/
structure TableM (σ : Type) where
  users : σ → List String
  get_seat : σ → String → Option Seat
  can_construct_state : σ → Bool
  construct_state : σ → σ
  can_destroy_state : σ → Bool
  destroy_state : σ → σ
  can_sit_out : σ → String → Bool
  sit_out : σ → String → Option σ
  can_leave : σ → String → Bool
  leave : σ → String → Option σ
  can_be_back : σ → String → Bool
  be_back : σ → String → Option σ
  join : σ → String → Int → Option σ
  buy_rebuy_top_off_or_rat_hole : σ → String → Int → Option σ
  hasState : σ → Bool
  can_stand_pat_or_discard : σ → Bool
  stand_pat_or_discard : σ → σ
  actor_index : σ → Option Nat
  can_fold : σ → Bool
  fold : σ → σ
  can_check_or_call : σ → Bool
  check_or_call : σ → σ
  can_post_bring_in : σ → Bool
  post_bring_in : σ → σ
  can_show_or_muck_hole_cards : σ → Bool
  show_or_muck_hole_cards : σ → σ
  parse_action : σ → String → (String → Option Int) → Option σ

/-- The timeout configuration of `Controller` (the fields of the
dataclass that `_run` reads), durations in microseconds. -/
structure Config where
  state_construction_timeout : Int
  state_destruction_timeout : Int
  idle_timeout : Int
  standing_pat_timeout : Int
  betting_timeout : Int
  hole_cards_showing_or_mucking_timeout : Int
  deriving Repr, DecidableEq

/-- The loop-local deadline registry of `_run`: one optional timestamp
per global timer category plus the per-user `idle_timestamps` dict
(modelled as an insertion-ordered association list, like a Python
dict). -/
structure Timers where
  state_construction_timestamp : Option Int
  state_destruction_timestamp : Option Int
  idle_timestamps : List (String × Option Int)
  standing_pat_timestamp : Option Int
  betting_timestamp : Option Int
  hole_cards_showing_or_mucking_timestamp : Option Int
  deriving Repr, DecidableEq

/-- Python `dict.get(k)`: `none` when the key is absent. -/
def dict_get (m : List (String × Option Int)) (k : String) :
    Option (Option Int) :=
  (m.find? (fun p => p.1 == k)).map (fun p => p.2)

/-- Python `m[k] = v`: replace the value of an existing key in place,
otherwise append the new binding (insertion order preserved). -/
def dict_set (m : List (String × Option Int)) (k : String) (v : Option Int) :
    List (String × Option Int) :=
  if m.any (fun p => p.1 == k) then
    m.map (fun p => if p.1 == k then (k, v) else p)
  else
    m ++ [(k, v)]

/-- Python `dict.get(k)` for the time-bank map. -/
def bank_get (m : List (String × Int)) (k : String) : Option Int :=
  (m.find? (fun p => p.1 == k)).map (fun p => p.2)

/-- The closure `is_past_timestamp` of `_run`: a `None` timestamp is
never past; otherwise compare with the current wall-clock time. -/
def is_past_timestamp (now : Int) (timestamp : Option Int) : Bool :=
  match timestamp with
  | none => false
  | some t => decide (t ≤ now)

/-- The closure `get_future_timestamp` of `_run`: `now + timeout`, or
`None` for a `None` timeout. -/
def get_future_timestamp (now : Int) (timeout : Option Int) : Option Int :=
  match timeout with
  | none => none
  | some d => some (now + d)

/-- Modelled from the spec: `pokerkit.min_or_none` (an external helper;
spec section 4.1: "returns the minimum of all present values, treating
absent as +infinity; returns absent if all are absent"). -/
def min_or_none (values : List (Option Int)) : Option Int :=
  match values.filterMap id with
  | [] => none
  | v :: vs => some (vs.foldl min v)

/-- The tuple of timestamps that `get_auto_timestamp` passes to
`min_or_none`, in source order: state construction, state destruction,
all idle values, standing pat, betting, hole-card showing/mucking. -/
def all_timestamps (tm : Timers) : List (Option Int) :=
  tm.state_construction_timestamp ::
    tm.state_destruction_timestamp ::
      (tm.idle_timestamps.map (fun p => p.2) ++
        [tm.standing_pat_timestamp, tm.betting_timestamp,
          tm.hole_cards_showing_or_mucking_timestamp])

/-- The closure `get_auto_timestamp` of `_run`. -/
def get_auto_timestamp (tm : Timers) : Option Int :=
  min_or_none (all_timestamps tm)

/-- The `.seconds` attribute of a Python `timedelta` whose total length
is `micros` microseconds.  Python normalises a timedelta to
`days, seconds, microseconds` with `0 ≤ seconds < 86400` and floor
semantics on `days`: `seconds = (micros // 10^6) mod 86400` with floor
division and a nonnegative remainder. -/
def timedelta_seconds (micros : Int) : Int :=
  Int.fmod (Int.fdiv micros 1000000) 86400

/-- The timeout (in whole seconds) that `get_event` passes to
`queue.get`: `max((auto_timestamp - now).seconds, 0)` when some deadline
is armed, and `None` (block indefinitely) otherwise. -/
def get_event_timeout (tm : Timers) (now : Int) : Option Int :=
  match get_auto_timestamp tm with
  | none => none
  | some auto => some (max (timedelta_seconds (auto - now)) 0)

/-- Helper for `py_split`: tokenize a character list, accumulating the
current (reversed) token in `cur`. -/
def py_split_chars : List Char → List Char → List String
  | cur, [] => if cur.isEmpty then [] else [String.mk cur.reverse]
  | cur, c :: cs =>
    if c.isWhitespace then
      (if cur.isEmpty then [] else [String.mk cur.reverse]) ++
        py_split_chars [] cs
    else
      py_split_chars (c :: cur) cs

/-- Python `str.split()` with no argument: split on runs of whitespace,
producing no empty tokens. -/
def py_split (a : String) : List String :=
  py_split_chars [] a.toList

/-- Digit-string value, `none` when empty or not all digits. -/
def nat_of_digits (cs : List Char) : Option Nat :=
  match cs with
  | [] => none
  | _ =>
    if cs.all Char.isDigit then
      some (cs.foldl (fun n c => 10 * n + (c.toNat - 48)) 0)
    else
      none

/-- Model of Python `int(str)` on the sign-and-digits core of its
grammar (the forms the dispatcher's seat tokens take); anything else is
a `ValueError`, i.e. `none`. -/
def py_int (a : String) : Option Int :=
  match a.toList with
  | '-' :: cs => (nat_of_digits cs).map (fun n => -(n : Int))
  | cs => (nat_of_digits cs).map (fun n => (n : Int))

/-- The shape selected by the `match tokens` statement of
`parse_user_action` (one constructor per `case`). -/
inductive DispatchCase where
  | join (seat_index : String)
  | leave
  | sit_out
  | be_back
  | brtr (starting_stack : String)
  | other
  deriving Repr, DecidableEq

/-- Which `case` of `parse_user_action`'s `match tokens` fires for a
given token list. -/
def dispatch_case (tokens : List String) : DispatchCase :=
  match tokens with
  | ["j", seat_index] => DispatchCase.join seat_index
  | ["l"] => DispatchCase.leave
  | ["s"] => DispatchCase.sit_out
  | ["b"] => DispatchCase.be_back
  | ["brtr", starting_stack] => DispatchCase.brtr starting_stack
  | _ => DispatchCase.other

/-- The auto-return prelude of the dispatcher's fallback branch
(`parse_user_action` lines 144–145): a participant who can be back is
returned first; a raised `ValueError` carries the unmutated state. -/
def auto_be_back {σ : Type} (T : TableM σ) (user : String) (s : σ) :
    Except σ σ :=
  if T.can_be_back s user then
    match T.be_back s user with
    | none => Except.error s
    | some s₁ => Except.ok s₁
  else
    Except.ok s

/-- The rest of the dispatcher's fallback branch (`parse_user_action`
lines 147–165): resolve the seat to the actor token
`p<player_index + 1>`, forward `"<actor> <raw text>"` to the rules
engine's action parser with the value parser, and on success clear the
three action-class timestamps. -/
def fallback_action {σ : Type} (T : TableM σ) (pv : String → Option Int)
    (user action : String) (tm : Timers) (s₁ : σ) :
    Except σ (σ × Timers) :=
  match T.get_seat s₁ user with
  | none => Except.error s₁
  | some seat =>
    match seat.player_index with
    | none => Except.error s₁
    | some player_index =>
      if T.hasState s₁ then
        match
          T.parse_action s₁
            ("p" ++ toString (player_index + 1) ++ " " ++ action) pv with
        | none => Except.error s₁
        | some s₂ =>
          Except.ok (s₂,
            { tm with
              standing_pat_timestamp := none
              betting_timestamp := none
              hole_cards_showing_or_mucking_timestamp := none })
      else
        Except.error s₁

/-- The nested function `parse_user_action` of `_run`.  On success it
returns the new table state and the new timer registry (only the three
action-class timestamps can change, and only in the fallback branch).
On `ValueError` it returns `Except.error` carrying the table state at
the moment of the raise: mutations already performed (the auto
`be_back`) persist, while the timer registry is untouched. -/
def parse_user_action {σ : Type} (T : TableM σ) (pv : String → Option Int)
    (user action : String) (s : σ) (tm : Timers) : Except σ (σ × Timers) :=
  match dispatch_case (py_split action) with
  | DispatchCase.join seat_index =>
    match py_int seat_index with
    | none => Except.error s
    | some i =>
      match T.join s user i with
      | none => Except.error s
      | some s₁ => Except.ok (s₁, tm)
  | DispatchCase.leave =>
    match T.leave s user with
    | none => Except.error s
    | some s₁ => Except.ok (s₁, tm)
  | DispatchCase.sit_out =>
    match T.sit_out s user with
    | none => Except.error s
    | some s₁ => Except.ok (s₁, tm)
  | DispatchCase.be_back =>
    match T.be_back s user with
    | none => Except.error s
    | some s₁ => Except.ok (s₁, tm)
  | DispatchCase.brtr starting_stack =>
    match pv starting_stack with
    | none => Except.error s
    | some v =>
      match T.buy_rebuy_top_off_or_rat_hole s user v with
      | none => Except.error s
      | some s₁ => Except.ok (s₁, tm)
  | DispatchCase.other =>
    match auto_be_back T user s with
    | Except.error e => Except.error e
    | Except.ok s₁ => fallback_action T pv user action tm s₁

/-- The state-construction category of one sweep pass (`_run` lines
189–207): when construction is possible and the deadline has passed,
fire and clear; when possible but not yet due, arm via
`min_or_none(current, now + timeout)`; the closing merge always runs. -/
def state_construction_step {σ : Type} (T : TableM σ) (cfg : Config)
    (now : Int) (s : σ) (tm : Timers) (data : List σ) :
    σ × Timers × List σ :=
  if T.can_construct_state s then
    if is_past_timestamp now tm.state_construction_timestamp then
      let s₁ := T.construct_state s
      (s₁,
        { tm with state_construction_timestamp :=
            min_or_none [none, get_future_timestamp now none] },
        data ++ [s₁])
    else
      (s,
        { tm with state_construction_timestamp :=
            min_or_none [tm.state_construction_timestamp,
              get_future_timestamp now (some cfg.state_construction_timeout)] },
        data)
  else
    (s,
      { tm with state_construction_timestamp :=
          min_or_none [tm.state_construction_timestamp,
            get_future_timestamp now none] },
      data)

/-- The state-destruction category of one sweep pass (`_run` lines
208–227), same shape as construction. -/
def state_destruction_step {σ : Type} (T : TableM σ) (cfg : Config)
    (now : Int) (s : σ) (tm : Timers) (data : List σ) :
    σ × Timers × List σ :=
  if T.can_destroy_state s then
    if is_past_timestamp now tm.state_destruction_timestamp then
      let s₁ := T.destroy_state s
      (s₁,
        { tm with state_destruction_timestamp :=
            min_or_none [none, get_future_timestamp now none] },
        data ++ [s₁])
    else
      (s,
        { tm with state_destruction_timestamp :=
            min_or_none [tm.state_destruction_timestamp,
              get_future_timestamp now (some cfg.state_destruction_timeout)] },
        data)
  else
    (s,
      { tm with state_destruction_timestamp :=
          min_or_none [tm.state_destruction_timestamp,
            get_future_timestamp now none] },
      data)

/-- The sit-out part of the per-user body (`_run` lines 232–238): a user
who has lost player status while a hand is live is sat out as soon as
the engine allows, with no deadline gating. -/
def sit_out_phase {σ : Type} (T : TableM σ) (u : String) (seat : Seat)
    (s : σ) (data : List σ) : Except Err (σ × List σ) :=
  if T.hasState s && !seat.player_status && T.can_sit_out s u then
    match T.sit_out s u with
    | none => Except.error Err.valueError
    | some s₁ => Except.ok (s₁, data ++ [s₁])
  else
    Except.ok (s, data)

/-- The idle-timer part of the per-user body (`_run` lines 240–254).
`seat` was read before the sit-out phase; `can_leave` is evaluated on
the current state.  The user's entry is reassigned unconditionally at
the end (`idle_timestamps[user] = get_future_timestamp(idle_timeout)`),
so it is `now + idle_timeout` exactly when the idle predicate holds and
the previous deadline has not passed, and `None` otherwise. -/
def idle_phase {σ : Type} (T : TableM σ) (cfg : Config) (now : Int)
    (u : String) (seat : Seat) (s : σ) (tm : Timers) (data : List σ) :
    Except Err (σ × Timers × List σ) :=
  if !seat.active_status && T.can_leave s u then
    if is_past_timestamp now (Option.join (dict_get tm.idle_timestamps u)) then
      match T.leave s u with
      | none => Except.error Err.valueError
      | some s₁ =>
        Except.ok (s₁,
          { tm with idle_timestamps :=
              dict_set tm.idle_timestamps u (get_future_timestamp now none) },
          data ++ [s₁])
    else
      Except.ok (s,
        { tm with idle_timestamps :=
            (dict_set tm.idle_timestamps u
              (get_future_timestamp now (some cfg.idle_timeout))) },
        data)
  else
    Except.ok (s,
      { tm with idle_timestamps :=
          dict_set tm.idle_timestamps u (get_future_timestamp now none) },
      data)

/-- One user's body of the `for user in table.users` loop of the sweep
(`_run` lines 229–254): fetch the seat, then sit-out phase, then idle
phase. -/
def user_step {σ : Type} (T : TableM σ) (cfg : Config) (now : Int)
    (acc : σ × Timers × List σ) (u : String) :
    Except Err (σ × Timers × List σ) :=
  match acc with
  | (s, tm, data) =>
    match T.get_seat s u with
    | none => Except.error Err.valueError
    | some seat =>
      match sit_out_phase T u seat s data with
      | Except.error e => Except.error e
      | Except.ok (s₁, data₁) => idle_phase T cfg now u seat s₁ tm data₁

/-- The standing-pat category of one sweep pass (`_run` lines
256–273). -/
def standing_pat_step {σ : Type} (T : TableM σ) (cfg : Config) (now : Int)
    (s : σ) (tm : Timers) (data : List σ) : σ × Timers × List σ :=
  if T.can_stand_pat_or_discard s then
    if is_past_timestamp now tm.standing_pat_timestamp then
      let s₁ := T.stand_pat_or_discard s
      (s₁,
        { tm with standing_pat_timestamp :=
            min_or_none [none, get_future_timestamp now none] },
        data ++ [s₁])
    else
      (s,
        { tm with standing_pat_timestamp :=
            min_or_none [tm.standing_pat_timestamp,
              get_future_timestamp now (some cfg.standing_pat_timeout)] },
        data)
  else
    (s,
      { tm with standing_pat_timestamp :=
          min_or_none [tm.standing_pat_timestamp,
            get_future_timestamp now none] },
      data)

/-- The betting category of one sweep pass (`_run` lines 274–301): when
an actor is due and the deadline has passed, apply the first legal of
fold, check-or-call, post-bring-in; if none is legal, raise
`AssertionError`. -/
def betting_step {σ : Type} (T : TableM σ) (cfg : Config) (now : Int)
    (s : σ) (tm : Timers) (data : List σ) :
    Except Err (σ × Timers × List σ) :=
  match T.actor_index s with
  | some _ =>
    if is_past_timestamp now tm.betting_timestamp then
      if T.can_fold s then
        let s₁ := T.fold s
        Except.ok (s₁,
          { tm with betting_timestamp :=
              min_or_none [none, get_future_timestamp now none] },
          data ++ [s₁])
      else if T.can_check_or_call s then
        let s₁ := T.check_or_call s
        Except.ok (s₁,
          { tm with betting_timestamp :=
              min_or_none [none, get_future_timestamp now none] },
          data ++ [s₁])
      else if T.can_post_bring_in s then
        let s₁ := T.post_bring_in s
        Except.ok (s₁,
          { tm with betting_timestamp :=
              min_or_none [none, get_future_timestamp now none] },
          data ++ [s₁])
      else
        Except.error Err.assertionError
    else
      Except.ok (s,
        { tm with betting_timestamp :=
            min_or_none [tm.betting_timestamp,
              get_future_timestamp now (some cfg.betting_timeout)] },
        data)
  | none =>
    Except.ok (s,
      { tm with betting_timestamp :=
          min_or_none [tm.betting_timestamp,
            get_future_timestamp now none] },
      data)

/-- The hole-card showing/mucking category of one sweep pass (`_run`
lines 302–326). -/
def hole_cards_step {σ : Type} (T : TableM σ) (cfg : Config) (now : Int)
    (s : σ) (tm : Timers) (data : List σ) : σ × Timers × List σ :=
  if T.can_show_or_muck_hole_cards s then
    if is_past_timestamp now tm.hole_cards_showing_or_mucking_timestamp then
      let s₁ := T.show_or_muck_hole_cards s
      (s₁,
        { tm with hole_cards_showing_or_mucking_timestamp :=
            min_or_none [none, get_future_timestamp now none] },
        data ++ [s₁])
    else
      (s,
        { tm with hole_cards_showing_or_mucking_timestamp :=
            min_or_none [tm.hole_cards_showing_or_mucking_timestamp,
              get_future_timestamp now
                (some cfg.hole_cards_showing_or_mucking_timeout)] },
        data)
  else
    (s,
      { tm with hole_cards_showing_or_mucking_timestamp :=
          min_or_none [tm.hole_cards_showing_or_mucking_timestamp,
            get_future_timestamp now none] },
      data)

/-- One full sweep pass (`_run` lines 189–326): construction,
destruction, every current user in order, then — only while a hand
state exists — standing pat, betting and hole-card reveal.  A raised
exception propagates (the sweep is outside the dispatcher's
`try`/`except`). -/
def sweep_pass {σ : Type} (T : TableM σ) (cfg : Config) (now : Int)
    (s : σ) (tm : Timers) (data : List σ) :
    Except Err (σ × Timers × List σ) := do
  let (s, tm, data) := state_construction_step T cfg now s tm data
  let (s, tm, data) := state_destruction_step T cfg now s tm data
  let (s, tm, data) ← (T.users s).foldlM (user_step T cfg now) (s, tm, data)
  if T.hasState s then
    let (s, tm, data) := standing_pat_step T cfg now s tm data
    let (s, tm, data) ← betting_step T cfg now s tm data
    let (s, tm, data) := hole_cards_step T cfg now s tm data
    return (s, tm, data)
  else
    return (s, tm, data)

/-- The fixed-point wrapper around the sweep (`_run` lines 185–187):
repeat the pass until one full pass appends no snapshot.  The Python
loop is unbounded; `fuel` bounds the unrolling in the model and is
irrelevant once a pass is stable. -/
def sweep_to_fixed_point {σ : Type} (fuel : Nat) (T : TableM σ)
    (cfg : Config) (now : Int) (s : σ) (tm : Timers) (data : List σ) :
    Except Err (σ × Timers × List σ) :=
  match fuel with
  | 0 => Except.ok (s, tm, data)
  | Nat.succ fuel => do
    let (s₁, tm₁, data₁) ← sweep_pass T cfg now s tm data
    if data₁.length = data.length then
      Except.ok (s₁, tm₁, data₁)
    else
      sweep_to_fixed_point fuel T cfg now s₁ tm₁ data₁

/-- A queued payload: either a command string or a non-actionable event
(which the loop warns about and drops). -/
inductive Payload where
  | str (a : String)
  | other
  deriving Repr, DecidableEq

/-- The event-handling head of one loop iteration (`_run` lines
170–183): dispatch a string payload through `parse_user_action`,
catching `ValueError` (mutations already performed persist, no snapshot
is appended); append one snapshot on success; warn and drop a
non-string payload; do nothing when the blocking pop timed out empty. -/
def dispatch_phase {σ : Type} (T : TableM σ) (pv : String → Option Int)
    (event : Option (String × Payload)) (s : σ) (tm : Timers) :
    σ × Timers × List σ :=
  match event with
  | none => (s, tm, [])
  | some (_, Payload.other) => (s, tm, [])
  | some (user, Payload.str action) =>
    match parse_user_action T pv user action s tm with
    | Except.error s₁ => (s₁, tm, [])
    | Except.ok (s₁, tm₁) => (s₁, tm₁, [s₁])

/-- The garbage-collection tail of one loop iteration (`_run` lines
328–332): drop idle-timer and time-bank entries whose user is no longer
at the table. -/
def gc_phase {σ : Type} (T : TableM σ) (s : σ) (tm : Timers)
    (banks : List (String × Int)) : Timers × List (String × Int) :=
  ({ tm with idle_timestamps :=
      tm.idle_timestamps.filter (fun p => (T.users s).contains p.1) },
    banks.filter (fun p => (T.users s).contains p.1))

/-- One full iteration of the `while True` loop of `_run` (lines
169–338), from a drained event (or `none` on an empty timeout) to the
published snapshot batch: dispatch, sweep to fixed point, garbage
collection; `data` is cleared after publication, so the iteration
returns the batch it hands to the callback. -/
def run_iteration {σ : Type} (T : TableM σ) (cfg : Config)
    (pv : String → Option Int) (now : Int)
    (event : Option (String × Payload)) (s : σ) (tm : Timers)
    (banks : List (String × Int)) (fuel : Nat) :
    Except Err (σ × Timers × List (String × Int) × List σ) := do
  let (s, tm, data) := dispatch_phase T pv event s tm
  let (s, tm, data) ← sweep_to_fixed_point fuel T cfg now s tm data
  let (tm, banks) := gc_phase T s tm banks
  return (s, tm, banks, data)

/-! ### Concrete instances used in counterexamples and witnesses -/

/-- Timer registry with nothing armed and no idle entries. -/
def emptyTimers : Timers :=
  { state_construction_timestamp := none
    state_destruction_timestamp := none
    idle_timestamps := []
    standing_pat_timestamp := none
    betting_timestamp := none
    hole_cards_showing_or_mucking_timestamp := none }

/-- Sample configuration (durations in microseconds). -/
def cfg₁ : Config :=
  { state_construction_timeout := 3000000
    state_destruction_timeout := 5000000
    idle_timeout := 7000000
    standing_pat_timeout := 11000000
    betting_timeout := 13000000
    hole_cards_showing_or_mucking_timeout := 17000000 }

/-- A table on which every predicate is false and no user is seated. -/
def noopTable : TableM Unit :=
  { users := fun _ => []
    get_seat := fun _ _ => none
    can_construct_state := fun _ => false
    construct_state := fun s => s
    can_destroy_state := fun _ => false
    destroy_state := fun s => s
    can_sit_out := fun _ _ => false
    sit_out := fun _ _ => none
    can_leave := fun _ _ => false
    leave := fun _ _ => none
    can_be_back := fun _ _ => false
    be_back := fun _ _ => none
    join := fun _ _ _ => none
    buy_rebuy_top_off_or_rat_hole := fun _ _ _ => none
    hasState := fun _ => false
    can_stand_pat_or_discard := fun _ => false
    stand_pat_or_discard := fun s => s
    actor_index := fun _ => none
    can_fold := fun _ => false
    fold := fun s => s
    can_check_or_call := fun _ => false
    check_or_call := fun s => s
    can_post_bring_in := fun _ => false
    post_bring_in := fun s => s
    can_show_or_muck_hole_cards := fun _ => false
    show_or_muck_hole_cards := fun s => s
    parse_action := fun _ _ _ => none }

/-- A table with one seated user "alice" on which every predicate is
false. -/
def seatedTable : TableM Unit :=
  { noopTable with
    users := fun _ => ["alice"]
    get_seat := fun _ _ => some ⟨true, true, none⟩ }

/-- A table with a live hand and a due actor for which none of fold,
check-or-call, post-bring-in is legal. -/
def stuckTable : TableM Unit :=
  { noopTable with
    hasState := fun _ => true
    actor_index := fun _ => some 0 }

/-- A table (state: `Bool`, `false` initially) on which the acting user
can be auto-returned (`be_back` flips the state to `true`) but whose
seat then has no player index, so a betting-class dispatch fails after
the mutation. -/
def baTable : TableM Bool :=
  { users := fun _ => []
    get_seat := fun _ _ => some ⟨true, true, none⟩
    can_construct_state := fun _ => false
    construct_state := fun s => s
    can_destroy_state := fun _ => false
    destroy_state := fun s => s
    can_sit_out := fun _ _ => false
    sit_out := fun _ _ => none
    can_leave := fun _ _ => false
    leave := fun _ _ => none
    can_be_back := fun _ _ => true
    be_back := fun _ _ => some true
    join := fun _ _ _ => none
    buy_rebuy_top_off_or_rat_hole := fun _ _ _ => none
    hasState := fun _ => false
    can_stand_pat_or_discard := fun _ => false
    stand_pat_or_discard := fun s => s
    actor_index := fun _ => none
    can_fold := fun _ => false
    fold := fun s => s
    can_check_or_call := fun _ => false
    check_or_call := fun s => s
    can_post_bring_in := fun _ => false
    post_bring_in := fun s => s
    can_show_or_muck_hole_cards := fun _ => false
    show_or_muck_hole_cards := fun s => s
    parse_action := fun _ _ _ => none }

/-- A table (state: `Nat`) on which every dispatcher operation succeeds,
with distinguishable results. -/
def okTable : TableM Nat :=
  { users := fun _ => []
    get_seat := fun _ _ => some ⟨true, true, some 3⟩
    can_construct_state := fun _ => false
    construct_state := fun s => s
    can_destroy_state := fun _ => false
    destroy_state := fun s => s
    can_sit_out := fun _ _ => true
    sit_out := fun _ _ => some 13
    can_leave := fun _ _ => true
    leave := fun _ _ => some 12
    can_be_back := fun _ _ => false
    be_back := fun _ _ => some 14
    join := fun _ _ i => some (10 + i.toNat)
    buy_rebuy_top_off_or_rat_hole := fun _ _ v => some (100 + v.toNat)
    hasState := fun _ => true
    can_stand_pat_or_discard := fun _ => false
    stand_pat_or_discard := fun s => s
    actor_index := fun _ => none
    can_fold := fun _ => false
    fold := fun s => s
    can_check_or_call := fun _ => false
    check_or_call := fun s => s
    can_post_bring_in := fun _ => false
    post_bring_in := fun s => s
    can_show_or_muck_hole_cards := fun _ => false
    show_or_muck_hole_cards := fun s => s
    parse_action := fun _ _ _ => some 99 }

/-- A table with one seated user "alice" who is inactive and allowed to
leave (her idle timer is eligible). -/
def idleTable : TableM Unit :=
  { noopTable with
    users := fun _ => ["alice"]
    get_seat := fun _ _ => some ⟨true, false, none⟩
    can_leave := fun _ _ => true
    leave := fun _ _ => some () }

/-- A table like `noopTable` on which a new hand can be constructed. -/
def armTable : TableM Unit :=
  { noopTable with can_construct_state := fun _ => true }

/-! ### Helper lemmas -/

theorem min_or_none_none_right (x : Option Int) :
    min_or_none [x, none] = x := by
  cases x <;> rfl

theorem min_or_none_eq_min? (xs : List (Option Int)) :
    min_or_none xs = (xs.filterMap id).min? := by
  unfold min_or_none List.min?
  cases xs.filterMap id <;> rfl

theorem min_or_none_eq_none_iff (xs : List (Option Int)) :
    min_or_none xs = none ↔ ∀ v ∈ xs, v = none := by
  rw [min_or_none_eq_min?]
  constructor
  · intro h v hv
    cases hveq : v with
    | none => rfl
    | some a =>
      have ha : a ∈ xs.filterMap id :=
        List.mem_filterMap.mpr ⟨v, hv, by rw [hveq]; rfl⟩
      revert h ha
      cases xs.filterMap id with
      | nil => simp
      | cons y ys => simp [List.min?]
  · intro h
    have hnil : xs.filterMap id = [] :=
      List.filterMap_eq_nil_iff.mpr (by intro a ha; simpa using h a ha)
    rw [hnil]
    rfl

theorem min_or_none_eq_some {xs : List (Option Int)} {m : Int}
    (h : min_or_none xs = some m) :
    some m ∈ xs ∧ ∀ t : Int, some t ∈ xs → m ≤ t := by
  rw [min_or_none_eq_min?] at h
  constructor
  · have hm : m ∈ xs.filterMap id := List.min?_mem min_choice h
    obtain ⟨v, hv, hveq⟩ := List.mem_filterMap.mp hm
    cases v with
    | none => exact absurd hveq (by simp)
    | some a => simpa [show a = m from by simpa using hveq] using hv
  · intro t ht
    have htm : t ∈ xs.filterMap id := List.mem_filterMap.mpr ⟨some t, ht, rfl⟩
    exact (List.le_min?_iff (fun _ _ _ => le_min_iff) h).mp le_rfl t htm

theorem state_construction_step_not_eligible {σ : Type} (T : TableM σ)
    (cfg : Config) (now : Int) (s : σ) (tm : Timers) (data : List σ)
    (hc : T.can_construct_state s = false) :
    state_construction_step T cfg now s tm data = (s, tm, data) := by
  unfold state_construction_step
  rw [hc]
  simp [get_future_timestamp, min_or_none_none_right]

theorem state_destruction_step_not_eligible {σ : Type} (T : TableM σ)
    (cfg : Config) (now : Int) (s : σ) (tm : Timers) (data : List σ)
    (hd : T.can_destroy_state s = false) :
    state_destruction_step T cfg now s tm data = (s, tm, data) := by
  unfold state_destruction_step
  rw [hd]
  simp [get_future_timestamp, min_or_none_none_right]

theorem standing_pat_step_not_eligible {σ : Type} (T : TableM σ)
    (cfg : Config) (now : Int) (s : σ) (tm : Timers) (data : List σ)
    (hsp : T.can_stand_pat_or_discard s = false) :
    standing_pat_step T cfg now s tm data = (s, tm, data) := by
  unfold standing_pat_step
  rw [hsp]
  simp [get_future_timestamp, min_or_none_none_right]

theorem hole_cards_step_not_eligible {σ : Type} (T : TableM σ)
    (cfg : Config) (now : Int) (s : σ) (tm : Timers) (data : List σ)
    (hh : T.can_show_or_muck_hole_cards s = false) :
    hole_cards_step T cfg now s tm data = (s, tm, data) := by
  unfold hole_cards_step
  rw [hh]
  simp [get_future_timestamp, min_or_none_none_right]

theorem betting_step_no_actor {σ : Type} (T : TableM σ)
    (cfg : Config) (now : Int) (s : σ) (tm : Timers) (data : List σ)
    (hb : T.actor_index s = none) :
    betting_step T cfg now s tm data = Except.ok (s, tm, data) := by
  unfold betting_step
  rw [hb]
  simp [get_future_timestamp, min_or_none_none_right]

theorem user_step_not_eligible {σ : Type} (T : TableM σ) (cfg : Config)
    (now : Int) (s : σ) (tm : Timers) (data : List σ) (u : String)
    (seat : Seat) (hseat : T.get_seat s u = some seat)
    (hso : (T.hasState s && !seat.player_status && T.can_sit_out s u) = false)
    (hid : (!seat.active_status && T.can_leave s u) = false) :
    user_step T cfg now (s, tm, data) u =
      Except.ok
        (s,
          { tm with idle_timestamps := dict_set tm.idle_timestamps u none },
          data) := by
  unfold user_step sit_out_phase idle_phase
  simp only [hseat, hso, hid, get_future_timestamp, Bool.false_eq_true,
    if_false, reduceCtorEq]

theorem users_fold_not_eligible {σ : Type} (T : TableM σ) (cfg : Config)
    (now : Int) (s : σ) (us : List String)
    (h : ∀ u ∈ us, ∃ seat, T.get_seat s u = some seat ∧
        (T.hasState s && !seat.player_status && T.can_sit_out s u) = false ∧
        (!seat.active_status && T.can_leave s u) = false) :
    ∀ tm data, ∃ tm',
      us.foldlM (user_step T cfg now) ((s, tm, data) : σ × Timers × List σ) =
        Except.ok (s, tm', data) := by
  induction us with
  | nil => intro tm data; exact ⟨tm, rfl⟩
  | cons u us ih =>
    intro tm data
    obtain ⟨seat, hseat, hso, hid⟩ := h u (List.mem_cons_self u us)
    obtain ⟨tm', htm'⟩ :=
      ih (fun v hv => h v (List.mem_cons_of_mem _ hv))
        { tm with idle_timestamps := dict_set tm.idle_timestamps u none } data
    refine ⟨tm', ?_⟩
    rw [List.foldlM_cons, user_step_not_eligible T cfg now s tm data u seat
      hseat hso hid]
    simpa using htm'

theorem auto_be_back_error {σ : Type} (T : TableM σ) (user : String)
    (s e : σ) (h : auto_be_back T user s = Except.error e) : e = s := by
  unfold auto_be_back at h
  by_cases hcb : T.can_be_back s user = true
  · rw [if_pos hcb] at h
    rcases hbb : T.be_back s user with _ | s₁ <;> simp only [hbb] at h
    · exact (Except.error.inj h).symm
    · exact absurd h (by simp)
  · rw [if_neg hcb] at h
    exact absurd h (by simp)

theorem auto_be_back_ok {σ : Type} (T : TableM σ) (user : String)
    (s s₁ : σ) (h : auto_be_back T user s = Except.ok s₁) :
    s₁ = s ∨ (T.can_be_back s user = true ∧
      T.be_back s user = some s₁) := by
  unfold auto_be_back at h
  by_cases hcb : T.can_be_back s user = true
  · rw [if_pos hcb] at h
    rcases hbb : T.be_back s user with _ | s₂ <;> simp only [hbb] at h
    · exact absurd h (by simp)
    · exact Or.inr ⟨hcb, congrArg some (Except.ok.inj h)⟩
  · rw [if_neg hcb] at h
    exact Or.inl (Except.ok.inj h).symm

theorem fallback_action_error {σ : Type} (T : TableM σ)
    (pv : String → Option Int) (user action : String) (tm : Timers)
    (s₁ e : σ)
    (h : fallback_action T pv user action tm s₁ = Except.error e) :
    e = s₁ := by
  unfold fallback_action at h
  rcases hseat : T.get_seat s₁ user with _ | seat <;>
    simp only [hseat] at h
  · exact (Except.error.inj h).symm
  · rcases hpi : seat.player_index with _ | pi <;> simp only [hpi] at h
    · exact (Except.error.inj h).symm
    · by_cases hhs : T.hasState s₁ = true
      · rw [if_pos hhs] at h
        rcases hpa : T.parse_action s₁
            ("p" ++ toString (pi + 1) ++ " " ++ action) pv with _ | s₂ <;>
          simp only [hpa] at h
        · exact (Except.error.inj h).symm
        · exact absurd h (by simp)
      · rw [if_neg hhs] at h
        exact (Except.error.inj h).symm

theorem fallback_action_ok {σ : Type} (T : TableM σ)
    (pv : String → Option Int) (user action : String) (tm : Timers)
    (s₁ s' : σ) (tm' : Timers)
    (h : fallback_action T pv user action tm s₁ = Except.ok (s', tm')) :
    tm' =
      { tm with
        standing_pat_timestamp := none
        betting_timestamp := none
        hole_cards_showing_or_mucking_timestamp := none } := by
  unfold fallback_action at h
  rcases hseat : T.get_seat s₁ user with _ | seat <;>
    simp only [hseat] at h
  · exact absurd h (by simp)
  · rcases hpi : seat.player_index with _ | pi <;> simp only [hpi] at h
    · exact absurd h (by simp)
    · by_cases hhs : T.hasState s₁ = true
      · rw [if_pos hhs] at h
        rcases hpa : T.parse_action s₁
            ("p" ++ toString (pi + 1) ++ " " ++ action) pv with _ | s₂ <;>
          simp only [hpa] at h
        · exact absurd h (by simp)
        · exact (congrArg Prod.snd (Except.ok.inj h)).symm
      · rw [if_neg hhs] at h
        exact absurd h (by simp)

theorem find?_key_filter_users {β : Type} (l : List (String × β))
    (users : List String) (u : String) (hu : u ∉ users) :
    (l.filter (fun p => users.contains p.1)).find? (fun p => p.1 == u) =
      none := by
  rw [List.find?_eq_none]
  intro x hx
  obtain ⟨hxl, hxq⟩ := List.mem_filter.mp hx
  intro hbeq
  have hxu : x.1 = u := by simpa using hbeq
  rw [hxu] at hxq
  exact hu (by simpa using hxq)

/-! ### Claim theorems -/

/-- C1: the bounded-wakeup half of the claim fails in the code.  With
only the betting deadline armed at absolute time 0 and the wall clock
one microsecond past it — so the time remaining until the nearest armed
deadline is negative and the loop should wake immediately — `get_event`
computes `max((auto_timestamp - now).seconds, 0) = 86399` seconds for
the blocking pop, because Python's `timedelta.seconds` of a negative
timedelta is its nonnegative seconds component rather than the signed
total; the blocking wait can thus exceed the remaining time (and the
configured timeout) by almost a full day. -/
theorem c1_wakeup_exceeds_remaining :
    get_auto_timestamp { emptyTimers with betting_timestamp := some 0 } =
      some 0 ∧
    ((0 : Int) - 1 < 0 ∧
      get_event_timeout { emptyTimers with betting_timestamp := some 0 } 1 =
        some 86399) := by
  exact ⟨rfl, by decide, by decide⟩

/-- C2 counterexample: a full sweep pass run while the
state-construction predicate is false leaves an armed
state-construction deadline in place (`some 5`) instead of clearing
it — after the pass the category's timestamp is present although the
predicate answers not-eligible. -/
theorem c2_global_deadline_retained :
    noopTable.can_construct_state () = false ∧
    sweep_pass noopTable cfg₁ 0 ()
        { emptyTimers with state_construction_timestamp := some 5 } [] =
      Except.ok
        ((), { emptyTimers with state_construction_timestamp := some 5 },
          []) := by
  exact ⟨rfl, rfl⟩

/-- C2 (amended): on any sweep pass, a per-participant idle deadline
whose eligibility predicate is not currently true is cleared (the entry
is unconditionally reassigned to `None`), but each of the five global
categories retains its previous deadline unchanged when its predicate
is not true — a global category's timestamp can remain present while
the predicate answers not-eligible; it is cleared only when it
fires. -/
theorem c2_predicate_false_deadlines {σ : Type} (T : TableM σ)
    (cfg : Config) (now : Int) (s s₁ : σ) (tm : Timers)
    (data data₁ : List σ) (u : String) (seat : Seat)
    (hc : T.can_construct_state s = false)
    (hd : T.can_destroy_state s = false)
    (hsp : T.can_stand_pat_or_discard s = false)
    (hb : T.actor_index s = none)
    (hh : T.can_show_or_muck_hole_cards s = false)
    (hid : (!seat.active_status && T.can_leave s₁ u) = false) :
    state_construction_step T cfg now s tm data = (s, tm, data) ∧
    state_destruction_step T cfg now s tm data = (s, tm, data) ∧
    standing_pat_step T cfg now s tm data = (s, tm, data) ∧
    betting_step T cfg now s tm data = Except.ok (s, tm, data) ∧
    hole_cards_step T cfg now s tm data = (s, tm, data) ∧
    idle_phase T cfg now u seat s₁ tm data₁ =
      Except.ok
        (s₁,
          { tm with idle_timestamps := dict_set tm.idle_timestamps u none },
          data₁) := by
  refine ⟨state_construction_step_not_eligible T cfg now s tm data hc,
    state_destruction_step_not_eligible T cfg now s tm data hd,
    standing_pat_step_not_eligible T cfg now s tm data hsp,
    betting_step_no_actor T cfg now s tm data hb,
    hole_cards_step_not_eligible T cfg now s tm data hh, ?_⟩
  unfold idle_phase
  simp only [hid, get_future_timestamp, Bool.false_eq_true, if_false]

/-- Witness for the amended C2 at a concrete instance: predicates
false, armed construction deadline retained, idle entry cleared. -/
theorem c2_predicate_false_deadlines_witness :
    state_construction_step noopTable cfg₁ 0 ()
        { emptyTimers with state_construction_timestamp := some 5 } [] =
      ((), { emptyTimers with state_construction_timestamp := some 5 },
        []) ∧
    state_destruction_step noopTable cfg₁ 0 ()
        { emptyTimers with state_construction_timestamp := some 5 } [] =
      ((), { emptyTimers with state_construction_timestamp := some 5 },
        []) ∧
    standing_pat_step noopTable cfg₁ 0 ()
        { emptyTimers with state_construction_timestamp := some 5 } [] =
      ((), { emptyTimers with state_construction_timestamp := some 5 },
        []) ∧
    betting_step noopTable cfg₁ 0 ()
        { emptyTimers with state_construction_timestamp := some 5 } [] =
      Except.ok
        ((), { emptyTimers with state_construction_timestamp := some 5 },
          []) ∧
    hole_cards_step noopTable cfg₁ 0 ()
        { emptyTimers with state_construction_timestamp := some 5 } [] =
      ((), { emptyTimers with state_construction_timestamp := some 5 },
        []) ∧
    idle_phase noopTable cfg₁ 0 "alice" ⟨true, true, none⟩ ()
        { emptyTimers with state_construction_timestamp := some 5 } [] =
      Except.ok
        ((),
          { { emptyTimers with state_construction_timestamp := some 5 } with
            idle_timestamps :=
              dict_set ({ emptyTimers with
                state_construction_timestamp :=
                  some 5 } : Timers).idle_timestamps "alice" none },
          []) := by
  exact c2_predicate_false_deadlines noopTable cfg₁ 0 () ()
    { emptyTimers with state_construction_timestamp := some 5 } [] []
    "alice" ⟨true, true, none⟩ rfl rfl rfl rfl rfl (by decide)

/-- C3: when the betting deadline has passed and an actor is due, the
sweep applies exactly the first legal action among fold, check-or-call,
post-bring-in (in that priority order) and appends exactly one
snapshot, the post-action state; if none of the three is legal it
raises `AssertionError`, and that error propagates through the sweep
fixed point and out of the loop iteration — the dispatcher's
`except ValueError` does not cover the sweep, so the iteration does not
continue. -/
theorem c3_betting_timeout_fallback {σ : Type} (T : TableM σ)
    (cfg : Config) (now : Int) (s : σ) (tm : Timers) (data : List σ)
    (i : Nat) (hactor : T.actor_index s = some i)
    (hpast : is_past_timestamp now tm.betting_timestamp = true) :
    (T.can_fold s = true →
      betting_step T cfg now s tm data =
        Except.ok (T.fold s, { tm with betting_timestamp := none },
          data ++ [T.fold s])) ∧
    (T.can_fold s = false → T.can_check_or_call s = true →
      betting_step T cfg now s tm data =
        Except.ok (T.check_or_call s,
          { tm with betting_timestamp := none },
          data ++ [T.check_or_call s])) ∧
    (T.can_fold s = false → T.can_check_or_call s = false →
      T.can_post_bring_in s = true →
      betting_step T cfg now s tm data =
        Except.ok (T.post_bring_in s,
          { tm with betting_timestamp := none },
          data ++ [T.post_bring_in s])) ∧
    (T.can_fold s = false → T.can_check_or_call s = false →
      T.can_post_bring_in s = false →
      betting_step T cfg now s tm data = Except.error Err.assertionError) ∧
    (∀ e, sweep_pass T cfg now s tm data = Except.error e →
      ∀ fuel, sweep_to_fixed_point (fuel + 1) T cfg now s tm data =
        Except.error e) ∧
    (∀ (pv : String → Option Int) (banks : List (String × Int))
        (fuel : Nat) (e : Err),
      sweep_to_fixed_point fuel T cfg now s tm [] = Except.error e →
      run_iteration T cfg pv now none s tm banks fuel =
        Except.error e) := by
  refine ⟨?_, ?_, ?_, ?_, ?_, ?_⟩
  · intro hf
    unfold betting_step
    rw [hactor]
    simp only [hpast, if_true, hf, min_or_none, List.filterMap,
      get_future_timestamp]
    rfl
  · intro hf hcc
    unfold betting_step
    rw [hactor]
    simp only [hpast, if_true, hf, hcc, Bool.false_eq_true, if_false,
      min_or_none, List.filterMap, get_future_timestamp]
    rfl
  · intro hf hcc hpb
    unfold betting_step
    rw [hactor]
    simp only [hpast, if_true, hf, hcc, hpb, Bool.false_eq_true, if_false,
      min_or_none, List.filterMap, get_future_timestamp]
    rfl
  · intro hf hcc hpb
    unfold betting_step
    rw [hactor]
    simp only [hpast, if_true, hf, hcc, hpb, Bool.false_eq_true, if_false]
  · intro e he fuel
    unfold sweep_to_fixed_point
    rw [he]
    rfl
  · intro pv banks fuel e he
    simp only [run_iteration, dispatch_phase]
    rw [he]
    rfl

/-- Witness for C3 at a concrete instance: a table with a due actor, a
passed betting deadline and no legal default raises `AssertionError`,
and the whole iteration returns that error. -/
theorem c3_betting_timeout_fallback_witness :
    betting_step stuckTable cfg₁ 1 ()
        { emptyTimers with betting_timestamp := some 0 } [] =
      Except.error Err.assertionError ∧
    run_iteration stuckTable cfg₁ (fun _ => none) 1 none ()
        { emptyTimers with betting_timestamp := some 0 } [] 5 =
      Except.error Err.assertionError := by
  have h := c3_betting_timeout_fallback stuckTable cfg₁ 1 ()
    { emptyTimers with betting_timestamp := some 0 } [] 0 rfl (by decide)
  exact ⟨h.2.2.2.1 rfl rfl rfl,
    h.2.2.2.2.2 (fun _ => none) [] 5 Err.assertionError rfl⟩

/-- C4 counterexample: a failed dispatch is not always mutation-free.
On `baTable` the payload "cc" from user "bob" first auto-returns the
user (`be_back` flips the state from `false` to `true`) and only then
fails (`player dne`), so `parse_user_action` raises carrying the
mutated state `true` — the failed attempt changed the table. -/
theorem c4_failed_dispatch_mutates :
    parse_user_action baTable (fun _ => none) "bob" "cc" false
        emptyTimers =
      Except.error true ∧
    (true : Bool) ≠ false ∧
    dispatch_phase baTable (fun _ => none)
        (some ("bob", Payload.str "cc")) false emptyTimers =
      (true, emptyTimers, []) := by
  exact ⟨rfl, by decide, rfl⟩

/-- C4 (amended): any string payload whose dispatch raises a
`ValueError` is caught at the dispatcher boundary: the iteration
continues with no snapshot appended for the attempt and the timer
registry untouched; the table state is unchanged except that, in the
fallback branch, a participant who could be back may have been
auto-returned (`be_back`) before the failure. -/
theorem c4_dispatch_failure_no_snapshot {σ : Type} (T : TableM σ)
    (pv : String → Option Int) (user action : String) (s s_err : σ)
    (tm : Timers)
    (h : parse_user_action T pv user action s tm = Except.error s_err) :
    dispatch_phase T pv (some (user, Payload.str action)) s tm =
      (s_err, tm, []) ∧
    (s_err = s ∨ (T.can_be_back s user = true ∧
      T.be_back s user = some s_err)) := by
  refine ⟨by simp [dispatch_phase, h], ?_⟩
  unfold parse_user_action at h
  rcases hcase : dispatch_case (py_split action) with x | _ | _ | _ | x | _ <;>
    simp only [hcase] at h
  · rcases hpi : py_int x with _ | i <;> simp only [hpi] at h
    · exact Or.inl (Except.error.inj h).symm
    · rcases hj : T.join s user i with _ | s₁ <;> simp only [hj] at h
      · exact Or.inl (Except.error.inj h).symm
      · exact absurd h (by simp)
  · rcases hl : T.leave s user with _ | s₁ <;> simp only [hl] at h
    · exact Or.inl (Except.error.inj h).symm
    · exact absurd h (by simp)
  · rcases hl : T.sit_out s user with _ | s₁ <;> simp only [hl] at h
    · exact Or.inl (Except.error.inj h).symm
    · exact absurd h (by simp)
  · rcases hl : T.be_back s user with _ | s₁ <;> simp only [hl] at h
    · exact Or.inl (Except.error.inj h).symm
    · exact absurd h (by simp)
  · rcases hv : pv x with _ | v <;> simp only [hv] at h
    · exact Or.inl (Except.error.inj h).symm
    · rcases hb : T.buy_rebuy_top_off_or_rat_hole s user v with _ | s₁ <;>
        simp only [hb] at h
      · exact Or.inl (Except.error.inj h).symm
      · exact absurd h (by simp)
  · rcases hab : auto_be_back T user s with e | s₁ <;> simp only [hab] at h
    · exact Or.inl ((Except.error.inj h).symm.trans
        (auto_be_back_error T user s e hab))
    · have hse : s_err = s₁ :=
        fallback_action_error T pv user action tm s₁ s_err h
      rcases auto_be_back_ok T user s s₁ hab with h₁ | ⟨hcb, hbb⟩
      · exact Or.inl (hse.trans h₁)
      · exact Or.inr ⟨hcb, by rw [hse]; exact hbb⟩

/-- Witness for the amended C4 at the concrete failing instance of the
counterexample: the failure is caught with no snapshot, and the carried
state is exactly the auto-returned one. -/
theorem c4_dispatch_failure_no_snapshot_witness :
    dispatch_phase baTable (fun _ => none)
        (some ("bob", Payload.str "cc")) false emptyTimers =
      (true, emptyTimers, []) ∧
    ((true : Bool) = false ∨ (baTable.can_be_back false "bob" = true ∧
      baTable.be_back false "bob" = some true)) := by
  exact c4_dispatch_failure_no_snapshot baTable (fun _ => none) "bob"
    "cc" false true emptyTimers rfl

/-- C5: a successfully dispatched fallback-branch (betting, discard or
reveal class) action clears the standing-pat, betting and hole-card
deadlines simultaneously, and the dispatch modifies no other timer
state: the state-construction and state-destruction deadlines and the
per-participant idle map are exactly as before. -/
theorem c5_action_clears_action_timers {σ : Type} (T : TableM σ)
    (pv : String → Option Int) (user action : String) (s s' : σ)
    (tm tm' : Timers)
    (hcase : dispatch_case (py_split action) = DispatchCase.other)
    (hok : parse_user_action T pv user action s tm =
      Except.ok (s', tm')) :
    tm'.standing_pat_timestamp = none ∧
    tm'.betting_timestamp = none ∧
    tm'.hole_cards_showing_or_mucking_timestamp = none ∧
    tm'.state_construction_timestamp = tm.state_construction_timestamp ∧
    tm'.state_destruction_timestamp = tm.state_destruction_timestamp ∧
    tm'.idle_timestamps = tm.idle_timestamps := by
  unfold parse_user_action at hok
  simp only [hcase] at hok
  rcases hab : auto_be_back T user s with e | s₁ <;> simp only [hab] at hok
  · exact absurd hok (by simp)
  · rw [fallback_action_ok T pv user action tm s₁ s' tm' hok]
    exact ⟨rfl, rfl, rfl, rfl, rfl, rfl⟩

/-- Witness for C5: on `okTable` the fallback payload "cc" succeeds and
yields a registry with the three action-class deadlines cleared and all
other timer state preserved. -/
theorem c5_action_clears_action_timers_witness :
    ({ state_construction_timestamp := some 9
       state_destruction_timestamp := none
       idle_timestamps := [("z", some 1)]
       standing_pat_timestamp := none
       betting_timestamp := none
       hole_cards_showing_or_mucking_timestamp :=
         none } : Timers).standing_pat_timestamp = none ∧
    ({ state_construction_timestamp := some 9
       state_destruction_timestamp := none
       idle_timestamps := [("z", some 1)]
       standing_pat_timestamp := none
       betting_timestamp := none
       hole_cards_showing_or_mucking_timestamp :=
         none } : Timers).betting_timestamp = none ∧
    ({ state_construction_timestamp := some 9
       state_destruction_timestamp := none
       idle_timestamps := [("z", some 1)]
       standing_pat_timestamp := none
       betting_timestamp := none
       hole_cards_showing_or_mucking_timestamp :=
         none } : Timers).hole_cards_showing_or_mucking_timestamp = none ∧
    ({ state_construction_timestamp := some 9
       state_destruction_timestamp := none
       idle_timestamps := [("z", some 1)]
       standing_pat_timestamp := none
       betting_timestamp := none
       hole_cards_showing_or_mucking_timestamp :=
         none } : Timers).state_construction_timestamp =
      ({ state_construction_timestamp := some 9
         state_destruction_timestamp := none
         idle_timestamps := [("z", some 1)]
         standing_pat_timestamp := some 7
         betting_timestamp := some 8
         hole_cards_showing_or_mucking_timestamp :=
           some 6 } : Timers).state_construction_timestamp ∧
    ({ state_construction_timestamp := some 9
       state_destruction_timestamp := none
       idle_timestamps := [("z", some 1)]
       standing_pat_timestamp := none
       betting_timestamp := none
       hole_cards_showing_or_mucking_timestamp :=
         none } : Timers).state_destruction_timestamp =
      ({ state_construction_timestamp := some 9
         state_destruction_timestamp := none
         idle_timestamps := [("z", some 1)]
         standing_pat_timestamp := some 7
         betting_timestamp := some 8
         hole_cards_showing_or_mucking_timestamp :=
           some 6 } : Timers).state_destruction_timestamp ∧
    ({ state_construction_timestamp := some 9
       state_destruction_timestamp := none
       idle_timestamps := [("z", some 1)]
       standing_pat_timestamp := none
       betting_timestamp := none
       hole_cards_showing_or_mucking_timestamp :=
         none } : Timers).idle_timestamps =
      ({ state_construction_timestamp := some 9
         state_destruction_timestamp := none
         idle_timestamps := [("z", some 1)]
         standing_pat_timestamp := some 7
         betting_timestamp := some 8
         hole_cards_showing_or_mucking_timestamp :=
           some 6 } : Timers).idle_timestamps := by
  exact c5_action_clears_action_timers okTable (fun _ => none) "u" "cc"
    0 99
    { state_construction_timestamp := some 9
      state_destruction_timestamp := none
      idle_timestamps := [("z", some 1)]
      standing_pat_timestamp := some 7
      betting_timestamp := some 8
      hole_cards_showing_or_mucking_timestamp := some 6 }
    { state_construction_timestamp := some 9
      state_destruction_timestamp := none
      idle_timestamps := [("z", some 1)]
      standing_pat_timestamp := none
      betting_timestamp := none
      hole_cards_showing_or_mucking_timestamp := none }
    rfl rfl

/-- C6: the nearest-deadline computation returns the minimum of all
present timestamps across the five global categories and every
participant's idle timestamp (absent treated as plus infinity), and is
absent exactly when all are absent; when it is absent the blocking pop
is given no timeout (`none`), and when the pop times out with nothing
enqueued (event `none`) the iteration drains no action and proceeds to
the sweep on unchanged state with an empty snapshot batch. -/
theorem c6_nearest_deadline (tm : Timers) (now : Int) :
    (get_auto_timestamp tm = none ↔ ∀ v ∈ all_timestamps tm, v = none) ∧
    (∀ m : Int, get_auto_timestamp tm = some m →
      some m ∈ all_timestamps tm ∧
        ∀ t : Int, some t ∈ all_timestamps tm → m ≤ t) ∧
    (get_auto_timestamp tm = none → get_event_timeout tm now = none) ∧
    (∀ (σ : Type) (T : TableM σ) (pv : String → Option Int) (s : σ),
      dispatch_phase T pv none s tm = (s, tm, [])) ∧
    (∀ (σ : Type) (T : TableM σ) (cfg : Config)
        (pv : String → Option Int) (s : σ) (banks : List (String × Int))
        (fuel : Nat) (s₁ : σ) (tm₁ : Timers) (d₁ : List σ),
      sweep_to_fixed_point fuel T cfg now s tm [] =
        Except.ok (s₁, tm₁, d₁) →
      run_iteration T cfg pv now none s tm banks fuel =
        Except.ok (s₁, (gc_phase T s₁ tm₁ banks).1,
          (gc_phase T s₁ tm₁ banks).2, d₁)) := by
  refine ⟨?_, ?_, ?_, ?_, ?_⟩
  · exact min_or_none_eq_none_iff (all_timestamps tm)
  · intro m hm
    exact min_or_none_eq_some hm
  · intro h
    unfold get_event_timeout
    rw [h]
  · intro σ T pv s
    rfl
  · intro σ T cfg pv s banks fuel s₁ tm₁ d₁ h
    simp only [run_iteration, dispatch_phase]
    rw [h]
    rfl

/-- Witness for C6 at a concrete registry: the minimum of the armed
deadlines 10, 15, 20 is found (10 belongs to the tuple and bounds 15),
and an empty event leaves state untouched. -/
theorem c6_nearest_deadline_witness :
    some (10 : Int) ∈ all_timestamps
      { emptyTimers with
        betting_timestamp := some 10
        standing_pat_timestamp := some 20
        idle_timestamps := [("alice", some 15), ("bob", none)] } ∧
    (10 : Int) ≤ 15 ∧
    dispatch_phase noopTable (fun _ => none) none ()
      { emptyTimers with
        betting_timestamp := some 10
        standing_pat_timestamp := some 20
        idle_timestamps := [("alice", some 15), ("bob", none)] } =
      ((),
        { emptyTimers with
          betting_timestamp := some 10
          standing_pat_timestamp := some 20
          idle_timestamps := [("alice", some 15), ("bob", none)] },
        []) := by
  have h := c6_nearest_deadline
    { emptyTimers with
      betting_timestamp := some 10
      standing_pat_timestamp := some 20
      idle_timestamps := [("alice", some 15), ("bob", none)] } 0
  refine ⟨(h.2.1 10 (by decide)).1, (h.2.1 10 (by decide)).2 15 (by decide),
    h.2.2.2.1 Unit noopTable (fun _ => none) ()⟩

/-- C7: the sweep is repeated until one full pass appends no snapshot
(the fixed-point loop exits with the result of the stable pass), and
the sweep is idempotent at the fixed point: a pass run when no
eligibility predicate holds mutates nothing and appends nothing (the
table state and the snapshot batch are returned unchanged). -/
theorem c7_sweep_fixed_point {σ : Type} (T : TableM σ) (cfg : Config)
    (now : Int) (s : σ) (tm : Timers) (data : List σ) (fuel : Nat)
    (hc : T.can_construct_state s = false)
    (hd : T.can_destroy_state s = false)
    (husers : ∀ u ∈ T.users s, ∃ seat, T.get_seat s u = some seat ∧
      (T.hasState s && !seat.player_status && T.can_sit_out s u) = false ∧
      (!seat.active_status && T.can_leave s u) = false)
    (hsp : T.can_stand_pat_or_discard s = false)
    (hb : T.actor_index s = none)
    (hh : T.can_show_or_muck_hole_cards s = false) :
    (∀ s₁ tm₁ d₁,
      sweep_pass T cfg now s tm data = Except.ok (s₁, tm₁, d₁) →
      d₁.length = data.length →
      sweep_to_fixed_point (fuel + 1) T cfg now s tm data =
        Except.ok (s₁, tm₁, d₁)) ∧
    (∀ s₁ tm₁ d₁,
      sweep_pass T cfg now s tm data = Except.ok (s₁, tm₁, d₁) →
      d₁.length ≠ data.length →
      sweep_to_fixed_point (fuel + 1) T cfg now s tm data =
        sweep_to_fixed_point fuel T cfg now s₁ tm₁ d₁) ∧
    (∃ tm', sweep_pass T cfg now s tm data = Except.ok (s, tm', data) ∧
      sweep_to_fixed_point (fuel + 1) T cfg now s tm data =
        Except.ok (s, tm', data)) := by
  have hexit : ∀ s₁ tm₁ d₁,
      sweep_pass T cfg now s tm data = Except.ok (s₁, tm₁, d₁) →
      d₁.length = data.length →
      sweep_to_fixed_point (fuel + 1) T cfg now s tm data =
        Except.ok (s₁, tm₁, d₁) := by
    intro s₁ tm₁ d₁ hok hlen
    unfold sweep_to_fixed_point
    rw [hok]
    simp [bind, Except.bind, hlen]
  refine ⟨hexit, ?_, ?_⟩
  · intro s₁ tm₁ d₁ hok hlen
    conv_lhs => rw [sweep_to_fixed_point, hok]
    simp only [bind, Except.bind]
    rw [if_neg hlen]
  obtain ⟨tm', hfold⟩ :=
    users_fold_not_eligible T cfg now s (T.users s) husers tm data
  have hcon := state_construction_step_not_eligible T cfg now s tm data hc
  have hdes := state_destruction_step_not_eligible T cfg now s tm data hd
  have hsps := standing_pat_step_not_eligible T cfg now s tm' data hsp
  have hbs := betting_step_no_actor T cfg now s tm' data hb
  have hhs := hole_cards_step_not_eligible T cfg now s tm' data hh
  have hpass : sweep_pass T cfg now s tm data =
      Except.ok (s, tm', data) := by
    by_cases hst : T.hasState s = true <;>
      simp only [sweep_pass, hcon, hdes, hfold, hst, if_true, if_false,
        Bool.false_eq_true, hsps, hbs, hhs, bind, Except.bind, pure,
        Except.pure]
  exact ⟨tm', hpass, hexit s tm' data hpass rfl⟩

/-- Witness for C7 on a concrete no-op table: one stable pass, and the
fixed-point loop exits with its result. -/
theorem c7_sweep_fixed_point_witness :
    ∃ tm', sweep_pass noopTable cfg₁ 0 () emptyTimers [] =
        Except.ok ((), tm', []) ∧
      sweep_to_fixed_point 4 noopTable cfg₁ 0 () emptyTimers [] =
        Except.ok ((), tm', []) := by
  exact (c7_sweep_fixed_point noopTable cfg₁ 0 () emptyTimers [] 3 rfl rfl
    (by intro u hu; cases hu) rfl rfl rfl).2.2

/-- C8: the dispatcher selects the operation by the first
whitespace-separated token: `j <seat>` joins at the parsed seat index,
`l` leaves, `s` sits out, `b` returns, `brtr <amount>` buys in with the
configured value parser applied to the amount; any other payload is a
betting-round action: the participant is auto-returned first when
possible, the seat is resolved to the actor token `p<player_index+1>`,
and `"<actor> <raw text>"` is forwarded to the rules engine's action
parser with the value parser. -/
theorem c8_dispatch_grammar {σ : Type} (T : TableM σ)
    (pv : String → Option Int) (user action : String) (s : σ)
    (tm : Timers) :
    (∀ x i s₁, py_split action = ["j", x] → py_int x = some i →
      T.join s user i = some s₁ →
      parse_user_action T pv user action s tm = Except.ok (s₁, tm)) ∧
    (∀ s₁, py_split action = ["l"] → T.leave s user = some s₁ →
      parse_user_action T pv user action s tm = Except.ok (s₁, tm)) ∧
    (∀ s₁, py_split action = ["s"] → T.sit_out s user = some s₁ →
      parse_user_action T pv user action s tm = Except.ok (s₁, tm)) ∧
    (∀ s₁, py_split action = ["b"] → T.be_back s user = some s₁ →
      parse_user_action T pv user action s tm = Except.ok (s₁, tm)) ∧
    (∀ x v s₁, py_split action = ["brtr", x] → pv x = some v →
      T.buy_rebuy_top_off_or_rat_hole s user v = some s₁ →
      parse_user_action T pv user action s tm = Except.ok (s₁, tm)) ∧
    (∀ s₁ seat pi s₂, dispatch_case (py_split action) = DispatchCase.other →
      auto_be_back T user s = Except.ok s₁ →
      T.get_seat s₁ user = some seat → seat.player_index = some pi →
      T.hasState s₁ = true →
      T.parse_action s₁ ("p" ++ toString (pi + 1) ++ " " ++ action) pv =
        some s₂ →
      parse_user_action T pv user action s tm =
        Except.ok (s₂,
          { tm with
            standing_pat_timestamp := none
            betting_timestamp := none
            hole_cards_showing_or_mucking_timestamp := none })) ∧
    (T.can_be_back s user = false → auto_be_back T user s = Except.ok s) ∧
    (∀ s₁, T.can_be_back s user = true → T.be_back s user = some s₁ →
      auto_be_back T user s = Except.ok s₁) := by
  refine ⟨?_, ?_, ?_, ?_, ?_, ?_, ?_, ?_⟩
  · intro x i s₁ h1 h2 h3
    simp only [parse_user_action, h1, dispatch_case, h2, h3]
  · intro s₁ h1 h2
    simp only [parse_user_action, h1, dispatch_case, h2]
  · intro s₁ h1 h2
    simp only [parse_user_action, h1, dispatch_case, h2]
  · intro s₁ h1 h2
    simp only [parse_user_action, h1, dispatch_case, h2]
  · intro x v s₁ h1 h2 h3
    simp only [parse_user_action, h1, dispatch_case, h2, h3]
  · intro s₁ seat pi s₂ h1 h2 h3 h4 h5 h6
    simp only [parse_user_action, h1, h2, fallback_action, h3, h4, h5,
      if_true, h6]
  · intro h1
    unfold auto_be_back
    rw [if_neg (by simp [h1])]
  · intro s₁ h1 h2
    unfold auto_be_back
    rw [if_pos h1, h2]

/-- Witness for C8 on `okTable`: a join, a buy-in and a fallback
betting action each dispatch to the corresponding engine operation. -/
theorem c8_dispatch_grammar_witness :
    parse_user_action okTable py_int "u" "j 2" 0 emptyTimers =
      Except.ok (12, emptyTimers) ∧
    parse_user_action okTable py_int "u" "brtr 500" 0 emptyTimers =
      Except.ok (600, emptyTimers) ∧
    parse_user_action okTable py_int "u" "cc" 0 emptyTimers =
      Except.ok (99,
        { emptyTimers with
          standing_pat_timestamp := none
          betting_timestamp := none
          hole_cards_showing_or_mucking_timestamp := none }) := by
  refine ⟨?_, ?_, ?_⟩
  · exact (c8_dispatch_grammar okTable py_int "u" "j 2" 0 emptyTimers).1
      "2" 2 12 rfl rfl rfl
  · exact (c8_dispatch_grammar okTable py_int "u" "brtr 500" 0
      emptyTimers).2.2.2.2.1 "500" 500 600 rfl rfl rfl
  · exact (c8_dispatch_grammar okTable py_int "u" "cc" 0
      emptyTimers).2.2.2.2.2.1 0 ⟨true, true, some 3⟩ 3 99 rfl
      ((c8_dispatch_grammar okTable py_int "u" "cc" 0
        emptyTimers).2.2.2.2.2.2.1 rfl) rfl rfl rfl rfl

/-- C9: after a completed loop iteration, any identity no longer among
the table's users has no entry in the idle-timestamp map and none in
the time-bank map (the garbage-collection pass removes both within the
iteration). -/
theorem c9_gc_removes_departed {σ : Type} (T : TableM σ) (cfg : Config)
    (pv : String → Option Int) (now : Int)
    (event : Option (String × Payload)) (s : σ) (tm : Timers)
    (banks : List (String × Int)) (fuel : Nat) (s' : σ) (tm' : Timers)
    (banks' : List (String × Int)) (out : List σ)
    (h : run_iteration T cfg pv now event s tm banks fuel =
      Except.ok (s', tm', banks', out)) :
    ∀ u, u ∉ T.users s' →
      dict_get tm'.idle_timestamps u = none ∧ bank_get banks' u = none := by
  intro u hu
  rcases hdp : dispatch_phase T pv event s tm with ⟨s₀, tm₀, d₀⟩
  simp only [run_iteration, hdp] at h
  rcases hsw : sweep_to_fixed_point fuel T cfg now s₀ tm₀ d₀ with
    e | ⟨s₁, tm₁, d₁⟩ <;> simp only [hsw, bind, Except.bind] at h
  · exact absurd h (by simp)
  · simp only [gc_phase, pure, Except.pure, Except.ok.injEq,
      Prod.mk.injEq] at h
    obtain ⟨hs, htm, hbk, hout⟩ := h
    subst hs
    rw [← htm, ← hbk]
    constructor
    · unfold dict_get
      rw [find?_key_filter_users tm₁.idle_timestamps (T.users s₁) u hu]
      rfl
    · unfold bank_get
      rw [find?_key_filter_users banks (T.users s₁) u hu]
      rfl

/-- Witness for C9: after an iteration on a table seating only "alice",
departed "bob" has neither an idle entry nor a time-bank entry. -/
theorem c9_gc_removes_departed_witness :
    dict_get ({ emptyTimers with
      idle_timestamps := [("alice", none)] } : Timers).idle_timestamps
      "bob" = none ∧
    bank_get [("alice", (3 : Int))] "bob" = none := by
  exact c9_gc_removes_departed seatedTable cfg₁ (fun _ => none) 0 none ()
    { emptyTimers with idle_timestamps := [("bob", some 1)] }
    [("bob", 2), ("alice", 3)] 3 ()
    { emptyTimers with idle_timestamps := [("alice", none)] }
    [("alice", 3)] [] rfl "bob" (by decide)

/-- C10: on every sweep pass each seated user's idle entry is
unconditionally reassigned rather than merged: it becomes
`now + idle_timeout` exactly when the user has no active status and can
leave while the previous deadline has not passed (so each pass restarts
a pending idle timer from the pass's current time, whatever the stored
deadline was), and it becomes absent otherwise; by contrast a global
category such as state construction merges its new arming timestamp
with the previously armed one via a minimum. -/
theorem c10_idle_reassigned {σ : Type} (T : TableM σ) (cfg : Config)
    (now : Int) (u : String) (seat : Seat) (s : σ) (tm : Timers)
    (data : List σ) :
    ((!seat.active_status && T.can_leave s u) = true →
      is_past_timestamp now
        (Option.join (dict_get tm.idle_timestamps u)) = false →
      idle_phase T cfg now u seat s tm data =
        Except.ok (s,
          { tm with idle_timestamps :=
              dict_set tm.idle_timestamps u (some (now + cfg.idle_timeout)) },
          data)) ∧
    ((!seat.active_status && T.can_leave s u) = false →
      idle_phase T cfg now u seat s tm data =
        Except.ok (s,
          { tm with idle_timestamps := dict_set tm.idle_timestamps u none },
          data)) ∧
    (∀ s₂, (!seat.active_status && T.can_leave s u) = true →
      is_past_timestamp now
        (Option.join (dict_get tm.idle_timestamps u)) = true →
      T.leave s u = some s₂ →
      idle_phase T cfg now u seat s tm data =
        Except.ok (s₂,
          { tm with idle_timestamps := dict_set tm.idle_timestamps u none },
          data ++ [s₂])) ∧
    (∀ t₀, T.can_construct_state s = true →
      is_past_timestamp now tm.state_construction_timestamp = false →
      tm.state_construction_timestamp = some t₀ →
      ((state_construction_step T cfg now s tm
          data).2.1).state_construction_timestamp =
        some (min t₀ (now + cfg.state_construction_timeout))) := by
  refine ⟨?_, ?_, ?_, ?_⟩
  · intro hpred hnp
    unfold idle_phase
    simp only [hpred, hnp, if_true, Bool.false_eq_true, if_false,
      get_future_timestamp]
  · intro hpred
    unfold idle_phase
    simp only [hpred, Bool.false_eq_true, if_false, get_future_timestamp]
  · intro s₂ hpred hp hleave
    unfold idle_phase
    simp only [hpred, hp, if_true, hleave, get_future_timestamp]
  · intro t₀ hc hnp ht₀
    rw [ht₀] at hnp
    unfold state_construction_step
    simp only [hc, ht₀, hnp, if_true, Bool.false_eq_true, if_false]
    simp [min_or_none, get_future_timestamp, List.filterMap]

/-- Witness for C10 on `idleTable`: the pending idle entry of "alice"
(previously armed for time 100) is restarted to
`now + idle_timeout = 7000000`, and an armed construction deadline is
merged by minimum on `armTable`. -/
theorem c10_idle_reassigned_witness :
    idle_phase idleTable cfg₁ 0 "alice" ⟨true, false, none⟩ ()
        { emptyTimers with idle_timestamps := [("alice", some 100)] } [] =
      Except.ok ((),
        { { emptyTimers with
            idle_timestamps := [("alice", some 100)] } with
          idle_timestamps :=
            dict_set [("alice", some 100)] "alice" (some 7000000) },
        []) ∧
    ((state_construction_step armTable cfg₁ 0 ()
        { emptyTimers with state_construction_timestamp := some 99 }
        []).2.1).state_construction_timestamp = some 99 := by
  have h := c10_idle_reassigned idleTable cfg₁ 0 "alice"
    ⟨true, false, none⟩ ()
    { emptyTimers with idle_timestamps := [("alice", some 100)] } []
  have h₂ := c10_idle_reassigned armTable cfg₁ 0 "alice"
    ⟨true, false, none⟩ ()
    { emptyTimers with state_construction_timestamp := some 99 } []
  refine ⟨h.1 (by decide) (by decide), ?_⟩
  have := h₂.2.2.2 99 rfl (by decide) rfl
  rw [this]
  decide

end Cardroom
